import Mathlib

/-!
Verification of the identity-reconciliation and state-tracking core of
charito-service against its specification.

The Python sources are shallowly embedded:

* `Val`/`Fields` model Python values stored inside a status-record dict
  (strings, numbers, `None`, nested dicts).  A status record
  (`Record`) is an insertion-ordered association list from field name to
  `Val`, matching CPython's ordered-dict semantics; the store's item map
  (`Items`) is an insertion-ordered association list from tracking key to
  record.
* `Store` models a `StateStore` instance: the in-memory map `items`, the
  durable file contents `file`, and a counter `persists` of how many times
  `_persist` ran.  `_persist` rewrites the whole snapshot, so it is modelled
  by copying `items` into `file` and bumping the counter.
* The wall clock (`timeauthority`, not part of the sources) is passed in as
  an explicit `now : String` argument; its timestamp parser is passed to
  `build_index` as a `parse : String → Option Int` argument (modelled from
  the spec: an ISO-timestamp parser that either yields a comparable instant
  or fails).
-/

namespace Charito

mutual
/-- A Python value as it occurs inside a status record: a string, an
integer/number, `None`, or a nested dict. -/
inductive Val where
  | s : String → Val
  | n : Int → Val
  | null : Val
  | obj : Fields → Val
deriving DecidableEq, Repr

/-- The fields of a nested Python dict value. -/
inductive Fields where
  | nil : Fields
  | cons : String → Val → Fields → Fields
deriving DecidableEq, Repr
end

/-- Lookup in a nested dict value, as Python `dict.get` (default `None`). -/
def Fields.get : Fields → String → Val
  | .nil, _ => .null
  | .cons k v rest, key => if k == key then v else rest.get key

/-- Whether a nested dict value is empty. -/
def Fields.isEmpty : Fields → Bool
  | .nil => true
  | .cons _ _ _ => false

/-- Python truthiness of a value: `None`, `""`, `0` and `{}` are falsy. -/
def Val.truthy : Val → Bool
  | .s a => a ≠ ""
  | .n i => i ≠ 0
  | .null => false
  | .obj f => ¬ f.isEmpty

/-- Python `str(...)` of a value.  The rendering of a composite (dict)
value is abbreviated: no operation of the embedded code ever observes the
text of a composite rendering, only that it is a non-empty string. -/
def Val.pyStr : Val → String
  | .s a => a
  | .n i => toString i
  | .null => "None"
  | .obj _ => "\x7bobj\x7d"

/-- `a or b` on Python values (truthiness-based short-circuit `or`). -/
def Val.por (a b : Val) : Val := if a.truthy then a else b

/-- `a or b` on Python strings (`""` is falsy). -/
def sor (a b : String) : String := if a ≠ "" then a else b

/-- Python `str.strip()`: drops leading and trailing whitespace.  (Defined
structurally on the character list so that the kernel can evaluate it; the
library's `String.trim` agrees but is not kernel-reducible.) -/
def pystrip (s : String) : String :=
  ⟨((s.data.dropWhile Char.isWhitespace).reverse.dropWhile Char.isWhitespace).reverse⟩

/-- A status record: insertion-ordered dict from field name to value. -/
abbrev Record := List (String × Val)

/-- The store's in-memory map: insertion-ordered dict from tracking key to
status record. -/
abbrev Items := List (String × Record)

section AssocOps
variable {α : Type}

/-- `d.get k` on an insertion-ordered dict: first binding wins. -/
def aget (d : List (String × α)) (k : String) : Option α :=
  (d.find? (fun p => p.1 == k)).map (fun p => p.2)

/-- `k in d` on an insertion-ordered dict. -/
def amem (d : List (String × α)) (k : String) : Bool :=
  d.any (fun p => p.1 == k)

/-- `d[k] = v` on an insertion-ordered dict: updates the existing binding
in place (CPython keeps the key's insertion position), otherwise appends
the new binding at the end. -/
def aset (d : List (String × α)) (k : String) (v : α) : List (String × α) :=
  if amem d k then d.map (fun p => if p.1 == k then (k, v) else p)
  else d ++ [(k, v)]

/-- `d.setdefault(k, v)`: inserts `v` under `k` only when `k` is absent. -/
def asetdefault (d : List (String × α)) (k : String) (v : α) : List (String × α) :=
  if amem d k then d else d ++ [(k, v)]

/-- `d.pop(k, None)`: removes the binding of `k`, keeping the rest in
order. -/
def apop (d : List (String × α)) (k : String) : List (String × α) :=
  d.filter (fun p => !(p.1 == k))

end AssocOps

/-- `d.get k` on a record, with Python's `None` default. -/
def rget (d : Record) (k : String) : Val := (aget d k).getD .null

/-- A `StateStore` instance: in-memory map, durable file contents, and the
number of `_persist` calls performed so far. -/
structure Store where
  items : Items
  file : Items
  persists : Nat
deriving DecidableEq, Repr

/-- `StateStore._persist`: rewrites the durable file with the full current
snapshot. -/
def Store.persist (st : Store) : Store :=
  { items := st.items, file := st.items, persists := st.persists + 1 }

/-- `str(payload.get("instanceId") or "").strip()` — the resolved instance
id a payload carries (state.py line 38). -/
def payloadInstanceId (payload : Record) : String :=
  pystrip (Val.pyStr (Val.por (rget payload "instanceId") (.s "")))

/-- The record `upsert_online` writes (state.py lines 43–55): the payload
with `instanceId`/`status`/`receivedAt` overwritten and `alias` defaulted
from, in order, the alias argument (when truthy), the popped placeholder's
alias (when the placeholder is a non-empty dict holding one), and the
canonical key. -/
def upsertPayload (payload : Record) (key : String) (aliasArg : Option String)
    (placeholder : Option Record) (now : String) : Record :=
  let p1 := aset (aset (aset payload "instanceId" (.s key)) "status" (.s "online"))
    "receivedAt" (.s now)
  let p2 := match aliasArg with
    | some a => if a ≠ "" then asetdefault p1 "alias" (.s a) else p1
    | none => p1
  let p3 := match placeholder with
    | some ph =>
        if ph ≠ [] ∧ amem ph "alias" = true then asetdefault p2 "alias" (rget ph "alias")
        else p2
    | none => p2
  asetdefault p3 "alias" (.s key)

/-- `StateStore.upsert_online` (state.py lines 37–57), with the wall clock
passed in as `now`. -/
def upsert_online (st : Store) (payload : Record) (key_hint : Option String)
    (aliasArg : Option String) (now : String) : Store :=
  let instance_id := payloadInstanceId payload
  let key_candidate := pystrip (sor (key_hint.getD "") (sor instance_id ""))
  if key_candidate = "" then st
  else
    let key := sor instance_id key_candidate
    let promote := instance_id ≠ "" ∧ key_candidate ≠ "" ∧ key_candidate ≠ key ∧
      amem st.items key_candidate = true
    let placeholder : Option Record :=
      if promote then aget st.items key_candidate else none
    let items1 := if promote then apop st.items key_candidate else st.items
    Store.persist
      { st with items := aset items1 key (upsertPayload payload key aliasArg placeholder now) }

/-- The record `mark_offline` writes (state.py lines 64–74): the fetched
(or synthesized) entry with `status`/`receivedAt` overwritten, the
numeric/sample fields defaulted to zero, `latestSample` defaulted to
empty, and `alias` defaulted to the alias argument (when truthy) or the
key. -/
def offlineRecord (entry : Record) (iid : String) (aliasArg : Option String)
    (now : String) : Record :=
  let e1 := aset (aset entry "status" (.s "offline")) "receivedAt" (.s now)
  let e2 := asetdefault e1 "samples" (.n 0)
  let e3 := asetdefault e2 "windowSeconds" (.n 0)
  let e4 := asetdefault e3 "timeoutSeconds" (.n 0)
  let e5 := asetdefault e4 "latestSample" (.obj .nil)
  match aliasArg with
  | some a => if a ≠ "" then asetdefault e5 "alias" (.s a)
    else asetdefault e5 "alias" (.s iid)
  | none => asetdefault e5 "alias" (.s iid)

/-- `StateStore.mark_offline` (state.py lines 59–76). -/
def mark_offline (st : Store) (instance_id : String) (aliasArg : Option String)
    (now : String) : Store :=
  let iid := pystrip instance_id
  if iid = "" then st
  else
    let entry := (aget st.items iid).getD [("instanceId", .s iid)]
    Store.persist { st with items := aset st.items iid (offlineRecord entry iid aliasArg now) }

/-- The bare record `ensure_placeholder` creates for a missing key. -/
def freshPlaceholder (key : String) : Record :=
  [("instanceId", .s key), ("status", .s "offline"), ("samples", .n 0),
   ("windowSeconds", .n 0), ("timeoutSeconds", .n 0), ("latestSample", .obj .nil)]

/-- The record `ensure_placeholder` writes (state.py lines 93–94): the
entry with `alias` defaulted to `alias or key` and `receivedAt` defaulted
to the current time. -/
def placeholderRecord (entry : Record) (key aliasArg now : String) : Record :=
  asetdefault (asetdefault entry "alias" (.s (sor aliasArg key))) "receivedAt" (.s now)

/-- `StateStore.ensure_placeholder` (state.py lines 78–96).  Note that the
source persists unconditionally once the key is non-empty, and that an
empty existing record (`if not entry`) is also replaced by a fresh one. -/
def ensure_placeholder (st : Store) (instance_id : String) (aliasArg : String)
    (now : String) : Store :=
  let key := pystrip instance_id
  if key = "" then st
  else
    let entry := match aget st.items key with
      | some e => if e = [] then freshPlaceholder key else e
      | none => freshPlaceholder key
    Store.persist { st with items := aset st.items key (placeholderRecord entry key aliasArg now) }

/-- The reduced projection taken by `build_index` (state.py lines 127–133). -/
def indexProj (e : Record) : Record :=
  [("instanceId", rget e "instanceId"),
   ("status", (aget e "status").getD (.s "unknown")),
   ("receivedAt", rget e "receivedAt")]

/-- The per-record filter of `build_index` (state.py lines 118–125):
given a parsed `since` instant, a record is skipped only when its stored
`receivedAt` is a non-empty string that parses to an instant not strictly
after `since`; parse failures include the record. -/
def indexInclude (parse : String → Option Int) (since_dt : Option Int)
    (e : Record) : Bool :=
  match since_dt with
  | none => true
  | some t =>
    match aget e "receivedAt" with
    | some (.s r) =>
        if r ≠ "" then
          match parse r with
          | some dt => dt > t
          | none => true
        else true
    | some _ => true
    | none => true

/-- `StateStore.build_index` (state.py lines 107–134), returning the
`items` list of the response (the wrapping `ts` field is elided).  The
timestamp parser of the time authority is passed in as `parse`. -/
def build_index (st : Store) (since_iso : Option String)
    (parse : String → Option Int) : List Record :=
  let since_dt : Option Int := match since_iso with
    | some s => if s ≠ "" then parse s else none
    | none => none
  ((st.items.map (fun p => p.2)).filter (indexInclude parse since_dt)).map indexProj

/-- `StateStore.prune` (state.py lines 136–147). -/
def prune (st : Store) (allowed_ids : List String) : Store :=
  let allowed := (allowed_ids.map pystrip).filter (fun s => s ≠ "")
  if allowed = [] then st
  else
    let keep := st.items.filter (fun p => allowed.contains p.1)
    let removed := st.items.any (fun p => !(allowed.contains p.1))
    if removed then Store.persist { st with items := keep }
    else { st with items := keep }

/-! ### Association-list dictionary lemmas -/

section AssocLemmas
variable {α : Type}

/-- The key list of an insertion-ordered dict, in order. -/
def keysOf (d : List (String × α)) : List String := d.map Prod.fst

/-- How many bindings a dict holds under a key. -/
def keyCount (d : List (String × α)) (k : String) : Nat := (keysOf d).count k

theorem aget_cons (p : String × α) (d : List (String × α)) (k : String) :
    aget (p :: d) k = if p.1 == k then some p.2 else aget d k := by
  by_cases h : p.1 == k
  · simp [aget, List.find?_cons_of_pos _ h, h]
  · simp [aget, List.find?_cons_of_neg, h]

theorem amem_cons (p : String × α) (d : List (String × α)) (k : String) :
    amem (p :: d) k = (p.1 == k || amem d k) := by
  simp [amem, List.any_cons]

theorem aget_none_of_amem_false {d : List (String × α)} {k : String}
    (h : amem d k = false) : aget d k = none := by
  induction d with
  | nil => rfl
  | cons p rest ih =>
      rw [amem_cons] at h
      simp only [Bool.or_eq_false_iff] at h
      rw [aget_cons, h.1]
      exact ih h.2

theorem amem_true_of_aget {d : List (String × α)} {k : String} {v : α}
    (h : aget d k = some v) : amem d k = true := by
  by_contra hn
  rw [aget_none_of_amem_false (Bool.eq_false_iff.mpr (fun hb => hn (by rw [hb]))) ] at h
  exact Option.noConfusion h

theorem aget_append (d e : List (String × α)) (k : String) :
    aget (d ++ e) k = match aget d k with
      | some v => some v
      | none => aget e k := by
  induction d with
  | nil => simp [aget]
  | cons p rest ih =>
      rw [List.cons_append, aget_cons, aget_cons]
      by_cases h : p.1 == k
      · simp [h]
      · simp only [h, if_neg, Bool.false_eq_true, if_false]
        exact ih

theorem aget_aset_self (d : List (String × α)) (k : String) (v : α) :
    aget (aset d k v) k = some v := by
  unfold aset
  by_cases h : amem d k
  · rw [if_pos h]
    induction d with
    | nil => simp [amem] at h
    | cons p rest ih =>
        rw [List.map_cons, aget_cons]
        by_cases hp : p.1 == k
        · simp [hp]
        · rw [amem_cons] at h
          simp only [hp, Bool.false_or] at h
          simp only [hp, Bool.false_eq_true, if_false, beq_self_eq_true, if_true]
          exact ih h
  · rw [if_neg h, aget_append, aget_none_of_amem_false (Bool.eq_false_iff.mpr h)]
    simp [aget_cons]

/-- Rewriting the binding of `k` does not touch bindings of other keys. -/
theorem aget_map_key (d : List (String × α)) {k k' : String} (v : α)
    (h : k' ≠ k) :
    aget (d.map (fun p => if p.1 == k then (k, v) else p)) k' = aget d k' := by
  induction d with
  | nil => rfl
  | cons p rest ih =>
      rw [List.map_cons, aget_cons, aget_cons]
      by_cases hp : p.1 == k
      · have hpk : p.1 = k := by simpa using hp
        have hkk' : (k == k') = false := by
          simp only [beq_eq_false_iff_ne, ne_eq]
          exact fun hh => h hh.symm
        simp only [hpk, beq_self_eq_true, if_true, hkk', Bool.false_eq_true, if_false]
        exact ih
      · simp only [hp, Bool.false_eq_true, if_false]
        by_cases hpk' : p.1 == k'
        · simp [hpk']
        · simp only [hpk', Bool.false_eq_true, if_false]
          exact ih

theorem aget_aset_ne (d : List (String × α)) {k k' : String} (v : α)
    (h : k' ≠ k) : aget (aset d k v) k' = aget d k' := by
  unfold aset
  by_cases hm : amem d k
  · rw [if_pos hm]
    exact aget_map_key d v h
  · rw [if_neg hm, aget_append]
    have hkk' : (k == k') = false := by
      simp only [beq_eq_false_iff_ne, ne_eq]
      exact fun hh => h hh.symm
    cases hg : aget d k' with
    | some v' => rfl
    | none => simp [aget_cons, hkk', aget]

theorem asetdefault_of_amem {d : List (String × α)} {k : String} (v : α)
    (h : amem d k = true) : asetdefault d k v = d := by
  simp [asetdefault, h]

theorem aget_asetdefault_self {d : List (String × α)} {k : String} (v : α)
    (h : amem d k = false) : aget (asetdefault d k v) k = some v := by
  simp only [asetdefault, h, Bool.false_eq_true, if_false]
  rw [aget_append, aget_none_of_amem_false h]
  simp [aget_cons]

theorem aget_asetdefault_ne (d : List (String × α)) {k k' : String} (v : α)
    (h : k' ≠ k) : aget (asetdefault d k v) k' = aget d k' := by
  unfold asetdefault
  by_cases hm : amem d k
  · rw [if_pos hm]
  · rw [if_neg hm, aget_append]
    have hkk' : (k == k') = false := by
      simp only [beq_eq_false_iff_ne, ne_eq]
      exact fun hh => h hh.symm
    cases hg : aget d k' with
    | some v' => rfl
    | none => simp [aget_cons, hkk', aget]

theorem apop_cons (p : String × α) (d : List (String × α)) (k : String) :
    apop (p :: d) k = if p.1 == k then apop d k else p :: apop d k := by
  by_cases hp : p.1 == k
  · simp [apop, List.filter_cons, hp]
  · simp [apop, List.filter_cons, hp]

theorem aget_apop_self (d : List (String × α)) (k : String) :
    aget (apop d k) k = none := by
  induction d with
  | nil => rfl
  | cons p rest ih =>
      rw [apop_cons]
      by_cases hp : p.1 == k
      · rw [if_pos hp]
        exact ih
      · rw [if_neg hp, aget_cons]
        simp only [hp, Bool.false_eq_true, if_false]
        exact ih

theorem aget_apop_ne (d : List (String × α)) {k k' : String}
    (h : k' ≠ k) : aget (apop d k) k' = aget d k' := by
  induction d with
  | nil => rfl
  | cons p rest ih =>
      rw [apop_cons]
      by_cases hp : p.1 == k
      · have hpk : p.1 = k := by simpa using hp
        have hpk' : (p.1 == k') = false := by
          simp only [beq_eq_false_iff_ne, ne_eq, hpk]
          exact fun hh => h hh.symm
        rw [if_pos hp, aget_cons, hpk', ih]
        simp
      · rw [if_neg hp, aget_cons, aget_cons, ih]

/-- Rewriting a present binding keeps the key list unchanged. -/
theorem keysOf_aset_of_amem (d : List (String × α)) {k : String} (v : α)
    (h : amem d k = true) : keysOf (aset d k v) = keysOf d := by
  simp only [aset, h, if_true, keysOf, List.map_map]
  apply List.map_congr_left
  intro p _
  by_cases hp : p.1 == k
  · have : p.1 = k := by simpa using hp
    simp [Function.comp, hp, this]
  · simp [Function.comp, hp]

theorem keysOf_aset_of_not_amem (d : List (String × α)) {k : String} (v : α)
    (h : amem d k = false) : keysOf (aset d k v) = keysOf d ++ [k] := by
  simp [aset, h, keysOf]

theorem keyCount_eq_zero_of_amem_false {d : List (String × α)} {k : String}
    (h : amem d k = false) : keyCount d k = 0 := by
  simp only [keyCount, List.count_eq_zero, keysOf]
  intro hmem
  rcases List.mem_map.mp hmem with ⟨p, hp, hpk⟩
  have : amem d k = true := by
    unfold amem
    rw [List.any_eq_true]
    exact ⟨p, hp, by simp [hpk]⟩
  rw [this] at h
  exact Bool.noConfusion h

theorem amem_of_keysOf_mem {d : List (String × α)} {k : String}
    (h : k ∈ keysOf d) : amem d k = true := by
  rcases List.mem_map.mp h with ⟨p, hp, hpk⟩
  unfold amem
  rw [List.any_eq_true]
  exact ⟨p, hp, by simp [hpk]⟩

/-- In a dict whose keys are distinct, updating `k` leaves exactly one
binding under `k`. -/
theorem keysOf_mem_of_amem {d : List (String × α)} {k : String}
    (h : amem d k = true) : k ∈ keysOf d := by
  unfold amem at h
  rw [List.any_eq_true] at h
  rcases h with ⟨p, hp, hpk⟩
  have : p.1 = k := by simpa using hpk
  exact this ▸ List.mem_map_of_mem Prod.fst hp

/-- In a dict whose keys are distinct, updating `k` leaves exactly one
binding under `k`. -/
theorem keyCount_aset_self (d : List (String × α)) (k : String) (v : α)
    (h : (keysOf d).Nodup) : keyCount (aset d k v) k = 1 := by
  by_cases hm : amem d k
  · rw [keyCount, keysOf_aset_of_amem d v hm]
    exact List.count_eq_one_of_mem h (keysOf_mem_of_amem hm)
  · rw [keyCount, keysOf_aset_of_not_amem d v (Bool.eq_false_iff.mpr hm),
      List.count_append]
    have hz := keyCount_eq_zero_of_amem_false (d := d) (k := k) (Bool.eq_false_iff.mpr hm)
    rw [keyCount] at hz
    simp [hz]

/-- Removing a key from a dict with distinct keys preserves distinctness. -/
theorem keysOf_apop_nodup (d : List (String × α)) (k : String)
    (h : (keysOf d).Nodup) : (keysOf (apop d k)).Nodup := by
  refine List.Nodup.sublist ?_ h
  exact List.Sublist.map Prod.fst (List.filter_sublist d)

theorem keysOf_aset_nodup (d : List (String × α)) (k : String) (v : α)
    (h : (keysOf d).Nodup) : (keysOf (aset d k v)).Nodup := by
  by_cases hm : amem d k
  · rw [keysOf_aset_of_amem d v hm]
    exact h
  · rw [keysOf_aset_of_not_amem d v (Bool.eq_false_iff.mpr hm)]
    rw [List.nodup_append]
    refine ⟨h, List.nodup_singleton k, ?_⟩
    intro a ha hb
    simp only [List.mem_singleton] at hb
    subst hb
    exact hm (amem_of_keysOf_mem ha)

/-- Rewriting the binding of a key no binding holds is the identity. -/
theorem map_aset_id {d : List (String × α)} {k : String} (v : α)
    (h : amem d k = false) :
    d.map (fun p => if p.1 == k then (k, v) else p) = d := by
  induction d with
  | nil => rfl
  | cons p rest ih =>
      rw [amem_cons, Bool.or_eq_false_iff] at h
      rw [List.map_cons, h.1, ih h.2]
      simp

/-- Writing back the value a key already holds is the identity, when the
dict's keys are distinct. -/
theorem aset_self_eq {d : List (String × α)} {k : String} {v : α}
    (hn : (keysOf d).Nodup) (h : aget d k = some v) : aset d k v = d := by
  unfold aset
  rw [if_pos (amem_true_of_aget h)]
  induction d with
  | nil => rfl
  | cons p rest ih =>
      rw [List.map_cons]
      rw [aget_cons] at h
      rw [keysOf, List.map_cons, List.nodup_cons] at hn
      by_cases hp : p.1 == k
      · have hpk : p.1 = k := by simpa using hp
        simp only [hp, if_true] at h ⊢
        have hv : p.2 = v := Option.some.inj h
        have hrest : amem rest k = false := by
          cases hq : amem rest k with
          | false => rfl
          | true => exact absurd (hpk ▸ keysOf_mem_of_amem hq) hn.1
        rw [map_aset_id v hrest, ← hpk, ← hv]
      · simp only [hp, Bool.false_eq_true, if_false] at h ⊢
        rw [ih hn.2 h]

end AssocLemmas

/-! ### Identity resolver (identity.py)

`fetch_instance_id` performs one HTTP GET; the network outcome is passed
in as an `Except NetErr HttpResponse`.  `raise_for_status` models the
`requests` library's documented behaviour: it raises exactly for 4xx and
5xx response codes. -/

/-- A failure of the HTTP GET itself: connection error or timeout. -/
inductive NetErr where
  | unreachable : NetErr
  | timedOut : NetErr
deriving DecidableEq, Repr

/-- An HTTP response: its status code and its JSON body (`none` when the
body is not valid JSON, in which case `response.json()` raises). -/
structure HttpResponse where
  status : Nat
  body : Option Val
deriving DecidableEq, Repr

/-- The ways `fetch_instance_id` can raise. -/
inductive FetchErr where
  | net : NetErr → FetchErr
  | httpStatus : Nat → FetchErr
  | badJson : FetchErr
  | notDict : FetchErr
  | noId : FetchErr
deriving DecidableEq, Repr

/-- `Response.raise_for_status` of the `requests` library: raises exactly
for status codes in [400, 600). -/
def raise_for_status (status : Nat) : Bool := decide (400 ≤ status ∧ status < 600)

/-- Lines 9–13 of identity.py, applied to the decoded JSON body:
`data = response.json() or \x7b\x7d`, the identifier-field lookup
(`data.get` on a non-dict raises), the trim, and the emptiness check. -/
def parse_instance_id (v : Val) : Except FetchErr String :=
  let data := Val.por v (.obj .nil)
  match data with
  | .obj fields =>
    let raw := Val.por (fields.get "instanceId") (Val.por (fields.get "id") (.s ""))
    let instance_id := pystrip raw.pyStr
    if instance_id = "" then .error .noId else .ok instance_id
  | _ => .error .notDict

/-- `fetch_instance_id` (identity.py lines 6–13). -/
def fetch_instance_id (resp : Except NetErr HttpResponse) : Except FetchErr String :=
  match resp with
  | .error e => .error (.net e)
  | .ok r =>
    if raise_for_status r.status then .error (.httpStatus r.status)
    else match r.body with
      | none => .error .badJson
      | some v => parse_instance_id v

/-! ### Poll engine (poller.py)

The poll engine is modelled per target: each `Target` owns one registry
entry (`_registry[target.identity_url]`) and one identity-cache slot
(`_identities[target.identity_url]`), and no poll-engine operation ever
touches another target's entry.  One call of `_poll_target` is embedded
as a function of the per-target state and an *oracle* that fixes the
outcome of every fallible collaborator call made during that poll
(identity fetch, whitelist broadcast, store prune persist, metrics fetch,
payload building, store upsert persist, store offline persist).  An
`Except.error` outcome of the embedded function corresponds to an
exception escaping `_poll_target` into `_run_loop`, which terminates the
background polling thread. -/

/-- A configured target (config.py `Target`); the URL fields are elided —
in the source they serve only as the dict keys of the per-target registry
and cache, which the per-target model indexes implicitly. -/
structure Target where
  alias2 : String
  instance_id : Option String
deriving DecidableEq, Repr

/-- Truthiness of an optional string (`None` and `""` are falsy). -/
def otruthy : Option String → Bool
  | some s => s ≠ ""
  | none => false

/-- `Target.tracking_key` (config.py lines 14–16): `instance_id or alias`. -/
def Target.tracking_key (t : Target) : String :=
  sor (t.instance_id.getD "") t.alias2

/-- The mutable per-target poll-engine state: the registry entry's
`key`/`alias`/`resolved` fields and the `_identities` cache slot.
(The source field name `alias` is a reserved word in Lean and is embedded
as `aliasName`.) -/
structure RegState where
  key : String
  aliasName : String
  resolved : Bool
  cached : Option String
deriving DecidableEq, Repr

/-- The per-target initialization performed by `CharitoPoller.__init__`
(poller.py lines 32–45). -/
def initReg (t : Target) : RegState :=
  { key := t.tracking_key
    aliasName := t.alias2
    resolved := otruthy t.instance_id
    cached := if otruthy t.instance_id then t.instance_id else none }

instance {ε α : Type} [DecidableEq ε] [DecidableEq α] : DecidableEq (Except ε α) := fun a b =>
  match a, b with
  | .error x, .error y =>
      if h : x = y then .isTrue (congrArg Except.error h)
      else .isFalse (fun hh => h (Except.error.inj hh))
  | .ok x, .ok y =>
      if h : x = y then .isTrue (congrArg Except.ok h)
      else .isFalse (fun hh => h (Except.ok.inj hh))
  | .error _, .ok _ => .isFalse (fun hh => Except.noConfusion hh)
  | .ok _, .error _ => .isFalse (fun hh => Except.noConfusion hh)

/-- The outcome of every fallible collaborator call one `_poll_target`
run can make, in program order.  `Except.error ()` means that call
raised. -/
structure Oracle where
  fetchId : Except Unit String
  broadcastOk : Except Unit Unit
  pruneOk : Except Unit Unit
  metricsOk : Except Unit Unit
  buildOk : Except Unit Unit
  upsertOk : Except Unit Unit
  broadcast2Ok : Except Unit Unit
  offlineOk : Except Unit Unit
deriving DecidableEq, Repr

/-- A completed call into a collaborator (state store or broadcast),
recorded in program order. -/
inductive Call where
  | upsertC : String → String → String → Call
  | offlineC : String → String → Call
  | broadcastC : Call
  | pruneC : List String → Call
deriving DecidableEq, Repr

/-- `CharitoPoller._ensure_identity` (poller.py lines 145–167), for one
target.  Returns the updated per-target state, the completed collaborator
calls, and either the resolver's return value (`some id` / `none`) or
`Except.error ()` when an exception escapes the method (the whitelist
broadcast and the prune persist are performed outside the `try` block of
the source, so their exceptions propagate). -/
def ensure_identity (s : RegState) (o : Oracle) :
    RegState × List Call × Except Unit (Option String) :=
  if s.resolved then (s, [], .ok (some s.key))
  else if otruthy s.cached then
    ({ s with resolved := true, key := s.cached.getD "" }, [],
      .ok (some (s.cached.getD "")))
  else
    match o.fetchId with
    | .error _ => (s, [], .ok none)
    | .ok iid =>
      if iid = "" then (s, [], .ok none)
      else
        let s2 := { s with cached := some iid, resolved := true, key := iid }
        match o.broadcastOk with
        | .error _ => (s2, [], .error ())
        | .ok _ =>
          match o.pruneOk with
          | .error _ => (s2, [.broadcastC], .error ())
          | .ok _ => (s2, [.broadcastC, .pruneC [s2.key]], .ok (some iid))

/-- The key hint `_poll_target` derives for a target (poller.py line 69). -/
def keyHintOf (t : Target) (s : RegState) : String := sor s.key t.tracking_key

/-- The alias `_poll_target` derives for a target (poller.py line 70). -/
def aliasOf (t : Target) (s : RegState) : String := sor s.aliasName t.alias2

/-- `CharitoPoller._poll_target` (poller.py lines 67–84), for one target.
Returns the updated per-target state, the completed collaborator calls,
and `.ok ()` when the method returns normally or `.error ()` when an
exception escapes it into `_run_loop` (terminating the polling loop).
The call to `_ensure_identity` sits outside the `try` block; the metrics
fetch, payload building, upsert and post-upsert broadcast sit inside it,
and any exception there is answered by one `mark_offline` call, which is
itself unguarded. -/
def poll_target (t : Target) (s : RegState) (o : Oracle) :
    RegState × List Call × Except Unit Unit :=
  let key_hint := keyHintOf t s
  let aliasv := aliasOf t s
  match ensure_identity s o with
  | (s1, c1, .error _) => (s1, c1, .error ())
  | (s1, c1, .ok instId) =>
    let effective := sor (instId.getD "") key_hint
    let tryRes : RegState × List Call × Except Unit Unit :=
      match o.metricsOk with
      | .error _ => (s1, [], .error ())
      | .ok _ =>
        match o.buildOk with
        | .error _ => (s1, [], .error ())
        | .ok _ =>
          match o.upsertOk with
          | .error _ => (s1, [], .error ())
          | .ok _ =>
            let c2 := [Call.upsertC effective key_hint aliasv]
            if otruthy instId && !s1.resolved then
              let s2 := { s1 with resolved := true, key := instId.getD "" }
              match o.broadcast2Ok with
              | .error _ => (s2, c2, .error ())
              | .ok _ => (s2, c2 ++ [.broadcastC], .ok ())
            else (s1, c2, .ok ())
    match tryRes with
    | (s2, c2, .ok _) => (s2, c1 ++ c2, .ok ())
    | (s2, c2, .error _) =>
      match o.offlineOk with
      | .ok _ => (s2, c1 ++ c2 ++ [.offlineC effective aliasv], .ok ())
      | .error _ => (s2, c1 ++ c2, .error ())

/-- The per-target poll-engine state after a sequence of `_poll_target`
runs with the given oracles, starting from the `__init__` state. -/
def runPolls (t : Target) (os : List Oracle) : RegState :=
  os.foldl (fun s o => (poll_target t s o).1) (initReg t)

/-! ### Further dictionary facts -/

section MoreAssocLemmas
variable {α : Type}

theorem asetdefault_ne_nil (d : List (String × α)) (k : String) (v : α) :
    asetdefault d k v ≠ [] := by
  unfold asetdefault
  by_cases hm : amem d k
  · rw [if_pos hm]
    intro hcon
    subst hcon
    simp [amem] at hm
  · rw [if_neg hm]
    simp

theorem aget_isSome_of_amem {d : List (String × α)} {k : String}
    (h : amem d k = true) : (aget d k).isSome = true := by
  induction d with
  | nil => simp [amem] at h
  | cons p rest ih =>
      rw [amem_cons] at h
      rw [aget_cons]
      by_cases hp : p.1 == k
      · simp [hp]
      · simp only [hp, Bool.false_eq_true, if_false]
        simp only [hp, Bool.false_or] at h
        exact ih h

theorem amem_asetdefault_self (d : List (String × α)) (k : String) (v : α) :
    amem (asetdefault d k v) k = true := by
  by_cases hm : amem d k
  · rw [asetdefault_of_amem v hm]
    exact hm
  · exact amem_true_of_aget (aget_asetdefault_self v (Bool.eq_false_iff.mpr hm))

theorem amem_asetdefault_ne (d : List (String × α)) {k k' : String} (v : α)
    (h : k' ≠ k) : amem (asetdefault d k v) k' = amem d k' := by
  unfold asetdefault
  by_cases hm : amem d k
  · rw [if_pos hm]
  · rw [if_neg hm]
    unfold amem
    rw [List.any_append]
    have hkk' : (k == k') = false := by
      simp only [beq_eq_false_iff_ne, ne_eq]
      exact fun hh => h hh.symm
    simp [hkk']

theorem amem_aset_self (d : List (String × α)) (k : String) (v : α) :
    amem (aset d k v) k = true :=
  amem_true_of_aget (aget_aset_self d k v)

theorem keysOf_asetdefault_nodup (d : List (String × α)) (k : String) (v : α)
    (h : (keysOf d).Nodup) : (keysOf (asetdefault d k v)).Nodup := by
  unfold asetdefault
  by_cases hm : amem d k
  · rw [if_pos hm]
    exact h
  · rw [if_neg hm]
    unfold keysOf
    rw [List.map_append, List.nodup_append]
    refine ⟨h, List.nodup_singleton k, ?_⟩
    intro a ha hb
    simp only [List.map_cons, List.map_nil, List.mem_singleton] at hb
    subst hb
    exact hm (amem_of_keysOf_mem ha)

theorem amem_false_of_aget_none {d : List (String × α)} {k : String}
    (h : aget d k = none) : amem d k = false := by
  cases hm : amem d k
  · rfl
  · have hs := aget_isSome_of_amem hm
    rw [h] at hs
    exact Bool.noConfusion hs

/-- `setdefault` never loses a binding that is already present. -/
theorem aget_asetdefault_pres {d : List (String × α)} {k : String} {v : α}
    (k0 : String) (v0 : α) (h : aget d k = some v) :
    aget (asetdefault d k0 v0) k = some v := by
  by_cases hk : k = k0
  · subst hk
    rw [asetdefault_of_amem v0 (amem_true_of_aget h)]
    exact h
  · rw [aget_asetdefault_ne d v0 hk]
    exact h

end MoreAssocLemmas

/-! ### Shared concrete inputs for witnesses and counterexamples -/

/-- A fully-populated record under key `"node-a"`, as left by an earlier
successful poll followed by `mark_offline`. -/
def exRecord : Record :=
  [("instanceId", .s "node-a"), ("status", .s "offline"), ("samples", .n 3),
   ("windowSeconds", .n 60), ("timeoutSeconds", .n 5), ("latestSample", .obj .nil),
   ("alias", .s "node-a"), ("receivedAt", .s "2024-01-01T00:00:00Z"),
   ("averageCpuLoad", .n 2)]

/-- A store holding exactly `exRecord`, freshly persisted. -/
def exStore : Store :=
  { items := [("node-a", exRecord)], file := [("node-a", exRecord)], persists := 1 }

/-! ### Claims about the state store -/

/-- C10: a call to `upsert_online` whose payload has no non-empty
`instanceId` and whose key hint is absent or empty after trimming, a call
to `mark_offline` whose id is empty after trimming, and a call to
`ensure_placeholder` whose key is empty after trimming, each leave the
in-memory map and the durable file unchanged and perform no persist. -/
theorem empty_key_mutations_noop (st : Store) (payload : Record)
    (key_hint aliasOpt : Option String) (aliasStr id2 key now : String)
    (h1 : payloadInstanceId payload = "")
    (h2 : pystrip (key_hint.getD "") = "")
    (h3 : pystrip id2 = "") (h4 : pystrip key = "") :
    upsert_online st payload key_hint aliasOpt now = st ∧
    mark_offline st id2 aliasOpt now = st ∧
    ensure_placeholder st key aliasStr now = st := by
  have hkc : pystrip (sor (key_hint.getD "") (sor (payloadInstanceId payload) "")) = "" := by
    rw [h1]
    by_cases hk : key_hint.getD "" = ""
    · rw [hk]
      rfl
    · have hs : sor (key_hint.getD "") (sor "" "") = key_hint.getD "" := by
        unfold sor
        simp [hk]
      rw [hs]
      exact h2
  refine ⟨?_, ?_, ?_⟩
  · simp [upsert_online, hkc]
  · simp [mark_offline, h3]
  · simp [ensure_placeholder, h4]

/-- Witness for C10 at concrete inputs. -/
theorem empty_key_mutations_noop_witness :
    upsert_online exStore [("foo", .s "x")] (some "  ") (some "a") "t" = exStore ∧
    mark_offline exStore " " (some "a") "t" = exStore ∧
    ensure_placeholder exStore "" "a" "t" = exStore :=
  empty_key_mutations_noop exStore [("foo", .s "x")] (some "  ") (some "a")
    "a" " " "" "t" (by rfl) (by rfl) (by rfl) (by rfl)

/-- C6 (amended): `ensure_placeholder` persists the snapshot on every
call whose key is non-empty after trimming — even when it left the
in-memory map unchanged — and skips the persist only for an
empty-after-trim key. -/
theorem ensure_placeholder_persist_policy (st : Store) (key aliasStr now : String) :
    (ensure_placeholder st key aliasStr now).persists =
      if pystrip key = "" then st.persists else st.persists + 1 := by
  unfold ensure_placeholder
  by_cases h : pystrip key = ""
  · simp [h]
  · simp [h, Store.persist]

/-- C6 counterexample: on a store whose record under `"node-a"` already
has `alias` and `receivedAt` set, `ensure_placeholder` leaves the
in-memory map unchanged yet still persists the snapshot, refuting
"writes through to durable storage only if it changed the map". -/
theorem ensure_placeholder_persist_counterexample :
    (ensure_placeholder exStore "node-a" "node-a" "t9").items = exStore.items ∧
    (ensure_placeholder exStore "node-a" "node-a" "t9").persists = exStore.persists + 1 := by
  constructor
  · rfl
  · rfl

/-- C4 (amended): `prune` first trims the supplied keys and drops the
entries that are empty after trimming; when no key survives this
normalization it removes nothing and does not persist, and otherwise it
keeps exactly the stored records whose key is among the surviving trimmed
keys. -/
theorem prune_policy (st : Store) (ids : List String) :
    ((ids.map pystrip).filter (fun s => s ≠ "") = [] → prune st ids = st) ∧
    ((ids.map pystrip).filter (fun s => s ≠ "") ≠ [] →
      (prune st ids).items =
        st.items.filter (fun p =>
          ((ids.map pystrip).filter (fun s => s ≠ "")).contains p.1)) := by
  constructor
  · intro h
    simp only [prune]
    rw [if_pos h]
  · intro h
    simp only [prune]
    rw [if_neg h]
    split
    · rfl
    · rfl

/-- Witness for C4 at concrete inputs: a whitespace-only key list is a
no-op, and a real key list keeps exactly the allowed records. -/
theorem prune_policy_witness :
    prune exStore ["  ", ""] = exStore ∧
    (prune exStore ["node-a", "x", " "]).items =
      exStore.items.filter (fun p =>
        (((["node-a", "x", " "] : List String).map pystrip).filter
          (fun s => s ≠ "")).contains p.1) :=
  ⟨(prune_policy exStore ["  ", ""]).1 (by rfl),
   (prune_policy exStore ["node-a", "x", " "]).2 (by decide)⟩

/-- C4 counterexample: `[""]` is a non-empty key list not containing the
stored key `"node-a"`, yet `prune` removes nothing (the claim as stated
requires the record to be removed). -/
theorem prune_counterexample :
    prune exStore [""] = exStore ∧ (([""] : List String) ≠ []) ∧
    (([""] : List String).contains "node-a") = false := by
  refine ⟨by rfl, by simp, by rfl⟩

/-- The record a store holds under a key (empty when the key is absent). -/
def storedRecord (st : Store) (k : String) : Record := (aget st.items k).getD []

/-- The entry `mark_offline` starts from: the stored record, or the bare
synthesized one (state.py line 64). -/
def storedOrBare (st : Store) (iid : String) : Record :=
  (aget st.items iid).getD [("instanceId", .s iid)]

/-- `offlineRecord` is one of five `setdefault "alias"` completions of the
same base record. -/
theorem offlineRecord_shape (entry : Record) (iid now : String)
    (aliasOpt : Option String) :
    ∃ av : Val, offlineRecord entry iid aliasOpt now =
      asetdefault (asetdefault (asetdefault (asetdefault (asetdefault
        (aset (aset entry "status" (.s "offline")) "receivedAt" (.s now))
        "samples" (.n 0)) "windowSeconds" (.n 0)) "timeoutSeconds" (.n 0))
        "latestSample" (.obj .nil)) "alias" av := by
  simp only [offlineRecord]
  rcases aliasOpt with _ | a
  · exact ⟨.s iid, rfl⟩
  · by_cases ha : a ≠ ""
    · exact ⟨.s a, by simp [ha]⟩
    · exact ⟨.s iid, by simp [ha]⟩

theorem offlineRecord_status (entry : Record) (iid now : String)
    (aliasOpt : Option String) :
    aget (offlineRecord entry iid aliasOpt now) "status" = some (.s "offline") := by
  obtain ⟨av, hsh⟩ := offlineRecord_shape entry iid now aliasOpt
  rw [hsh]
  apply aget_asetdefault_pres
  apply aget_asetdefault_pres
  apply aget_asetdefault_pres
  apply aget_asetdefault_pres
  apply aget_asetdefault_pres
  rw [aget_aset_ne _ _ (by decide)]
  exact aget_aset_self entry "status" (.s "offline")

theorem offlineRecord_receivedAt (entry : Record) (iid now : String)
    (aliasOpt : Option String) :
    aget (offlineRecord entry iid aliasOpt now) "receivedAt" = some (.s now) := by
  obtain ⟨av, hsh⟩ := offlineRecord_shape entry iid now aliasOpt
  rw [hsh]
  apply aget_asetdefault_pres
  apply aget_asetdefault_pres
  apply aget_asetdefault_pres
  apply aget_asetdefault_pres
  apply aget_asetdefault_pres
  exact aget_aset_self _ "receivedAt" (Val.s now)

/-- `mark_offline` does not touch any field of the entry other than
`status` and `receivedAt`. -/
theorem offlineRecord_pres (entry : Record) (iid now : String)
    (aliasOpt : Option String) {k : String} {v : Val}
    (hk1 : k ≠ "status") (hk2 : k ≠ "receivedAt")
    (hv : aget entry k = some v) :
    aget (offlineRecord entry iid aliasOpt now) k = some v := by
  obtain ⟨av, hsh⟩ := offlineRecord_shape entry iid now aliasOpt
  rw [hsh]
  apply aget_asetdefault_pres
  apply aget_asetdefault_pres
  apply aget_asetdefault_pres
  apply aget_asetdefault_pres
  apply aget_asetdefault_pres
  rw [aget_aset_ne _ _ hk2, aget_aset_ne _ _ hk1]
  exact hv

theorem offlineRecord_default_samples (entry : Record) (iid now : String)
    (aliasOpt : Option String) (h : amem entry "samples" = false) :
    aget (offlineRecord entry iid aliasOpt now) "samples" = some (.n 0) := by
  obtain ⟨av, hsh⟩ := offlineRecord_shape entry iid now aliasOpt
  rw [hsh]
  apply aget_asetdefault_pres
  apply aget_asetdefault_pres
  apply aget_asetdefault_pres
  apply aget_asetdefault_pres
  apply aget_asetdefault_self
  apply amem_false_of_aget_none
  rw [aget_aset_ne _ _ (by decide), aget_aset_ne _ _ (by decide)]
  exact aget_none_of_amem_false h

theorem offlineRecord_default_window (entry : Record) (iid now : String)
    (aliasOpt : Option String) (h : amem entry "windowSeconds" = false) :
    aget (offlineRecord entry iid aliasOpt now) "windowSeconds" = some (.n 0) := by
  obtain ⟨av, hsh⟩ := offlineRecord_shape entry iid now aliasOpt
  rw [hsh]
  apply aget_asetdefault_pres
  apply aget_asetdefault_pres
  apply aget_asetdefault_pres
  apply aget_asetdefault_self
  apply amem_false_of_aget_none
  rw [aget_asetdefault_ne _ _ (by decide), aget_aset_ne _ _ (by decide),
    aget_aset_ne _ _ (by decide)]
  exact aget_none_of_amem_false h

theorem offlineRecord_default_timeout (entry : Record) (iid now : String)
    (aliasOpt : Option String) (h : amem entry "timeoutSeconds" = false) :
    aget (offlineRecord entry iid aliasOpt now) "timeoutSeconds" = some (.n 0) := by
  obtain ⟨av, hsh⟩ := offlineRecord_shape entry iid now aliasOpt
  rw [hsh]
  apply aget_asetdefault_pres
  apply aget_asetdefault_pres
  apply aget_asetdefault_self
  apply amem_false_of_aget_none
  rw [aget_asetdefault_ne _ _ (by decide), aget_asetdefault_ne _ _ (by decide),
    aget_aset_ne _ _ (by decide), aget_aset_ne _ _ (by decide)]
  exact aget_none_of_amem_false h

theorem offlineRecord_default_latest (entry : Record) (iid now : String)
    (aliasOpt : Option String) (h : amem entry "latestSample" = false) :
    aget (offlineRecord entry iid aliasOpt now) "latestSample" = some (.obj .nil) := by
  obtain ⟨av, hsh⟩ := offlineRecord_shape entry iid now aliasOpt
  rw [hsh]
  apply aget_asetdefault_pres
  apply aget_asetdefault_self
  apply amem_false_of_aget_none
  rw [aget_asetdefault_ne _ _ (by decide), aget_asetdefault_ne _ _ (by decide),
    aget_asetdefault_ne _ _ (by decide), aget_aset_ne _ _ (by decide),
    aget_aset_ne _ _ (by decide)]
  exact aget_none_of_amem_false h

/-- C3: on any store, `mark_offline` with a non-empty (trimmed) id leaves
a record under that id whose `status` is offline and whose `receivedAt`
is the current time; it synthesizes a bare record when none exists,
defaults never-populated `samples`/`windowSeconds`/`timeoutSeconds` to
zero and `latestSample` to empty, and keeps every field the existing (or
synthesized) entry already had, other than `status`/`receivedAt`,
unchanged. -/
theorem mark_offline_spec (st : Store) (id2 : String) (aliasOpt : Option String)
    (now : String) (h : pystrip id2 ≠ "") :
    (aget (mark_offline st id2 aliasOpt now).items (pystrip id2)).isSome = true ∧
    aget (storedRecord (mark_offline st id2 aliasOpt now) (pystrip id2)) "status" =
      some (.s "offline") ∧
    aget (storedRecord (mark_offline st id2 aliasOpt now) (pystrip id2)) "receivedAt" =
      some (.s now) ∧
    (∀ k v, k ≠ "status" → k ≠ "receivedAt" →
      aget (storedOrBare st (pystrip id2)) k = some v →
      aget (storedRecord (mark_offline st id2 aliasOpt now) (pystrip id2)) k = some v) ∧
    (amem (storedOrBare st (pystrip id2)) "samples" = false →
      aget (storedRecord (mark_offline st id2 aliasOpt now) (pystrip id2)) "samples" =
        some (.n 0)) ∧
    (amem (storedOrBare st (pystrip id2)) "windowSeconds" = false →
      aget (storedRecord (mark_offline st id2 aliasOpt now) (pystrip id2)) "windowSeconds" =
        some (.n 0)) ∧
    (amem (storedOrBare st (pystrip id2)) "timeoutSeconds" = false →
      aget (storedRecord (mark_offline st id2 aliasOpt now) (pystrip id2)) "timeoutSeconds" =
        some (.n 0)) ∧
    (amem (storedOrBare st (pystrip id2)) "latestSample" = false →
      aget (storedRecord (mark_offline st id2 aliasOpt now) (pystrip id2)) "latestSample" =
        some (.obj .nil)) := by
  have hres : (mark_offline st id2 aliasOpt now).items =
      aset st.items (pystrip id2)
        (offlineRecord (storedOrBare st (pystrip id2)) (pystrip id2) aliasOpt now) := by
    simp only [mark_offline, storedOrBare]
    rw [if_neg h]
    rfl
  have hget : aget (mark_offline st id2 aliasOpt now).items (pystrip id2) =
      some (offlineRecord (storedOrBare st (pystrip id2)) (pystrip id2) aliasOpt now) := by
    rw [hres]
    exact aget_aset_self _ _ _
  have hrec : storedRecord (mark_offline st id2 aliasOpt now) (pystrip id2) =
      offlineRecord (storedOrBare st (pystrip id2)) (pystrip id2) aliasOpt now := by
    rw [storedRecord, hget]
    rfl
  refine ⟨by rw [hget]; rfl, ?_, ?_, ?_, ?_, ?_, ?_, ?_⟩
  · rw [hrec]
    exact offlineRecord_status _ _ _ _
  · rw [hrec]
    exact offlineRecord_receivedAt _ _ _ _
  · intro k v hk1 hk2 hv
    rw [hrec]
    exact offlineRecord_pres _ _ _ _ hk1 hk2 hv
  · intro hm
    rw [hrec]
    exact offlineRecord_default_samples _ _ _ _ hm
  · intro hm
    rw [hrec]
    exact offlineRecord_default_window _ _ _ _ hm
  · intro hm
    rw [hrec]
    exact offlineRecord_default_timeout _ _ _ _ hm
  · intro hm
    rw [hrec]
    exact offlineRecord_default_latest _ _ _ _ hm

/-- Witness for C3: on `exStore` the populated metric field
`averageCpuLoad` survives `mark_offline` unchanged while `status` moves
to offline, and on a key with no record the numeric fields default to
zero. -/
theorem mark_offline_spec_witness :
    aget (storedRecord (mark_offline exStore "node-a" (some "node-a") "t7") "node-a")
      "status" = some (.s "offline") ∧
    aget (storedRecord (mark_offline exStore "node-a" (some "node-a") "t7") "node-a")
      "averageCpuLoad" = some (.n 2) ∧
    aget (storedRecord (mark_offline exStore "ghost" (some "g") "t8") "ghost")
      "samples" = some (.n 0) :=
  ⟨(mark_offline_spec exStore "node-a" (some "node-a") "t7" (by decide)).2.1,
   (mark_offline_spec exStore "node-a" (some "node-a") "t7" (by decide)).2.2.2.1
     "averageCpuLoad" (.n 2) (by decide) (by decide) (by rfl),
   (mark_offline_spec exStore "ghost" (some "g") "t8" (by decide)).2.2.2.2.1 (by rfl)⟩

/-- C5: `ensure_placeholder` is idempotent — with a non-empty (trimmed)
key and a duplicate-free store, the second call with the same key and
alias leaves the map exactly as the first call left it, and exactly one
record exists under the key. -/
theorem ensure_placeholder_idempotent (st : Store) (key aliasStr now1 now2 : String)
    (hk : pystrip key ≠ "") (hnd : (keysOf st.items).Nodup) :
    (ensure_placeholder (ensure_placeholder st key aliasStr now1) key aliasStr now2).items =
      (ensure_placeholder st key aliasStr now1).items ∧
    keyCount (ensure_placeholder st key aliasStr now1).items (pystrip key) = 1 := by
  have hs1 : (ensure_placeholder st key aliasStr now1).items =
      aset st.items (pystrip key)
        (placeholderRecord
          (match aget st.items (pystrip key) with
            | some e => if e = [] then freshPlaceholder (pystrip key) else e
            | none => freshPlaceholder (pystrip key))
          (pystrip key) aliasStr now1) := by
    simp only [ensure_placeholder]
    rw [if_neg hk]
    rfl
  set R := placeholderRecord
      (match aget st.items (pystrip key) with
        | some e => if e = [] then freshPlaceholder (pystrip key) else e
        | none => freshPlaceholder (pystrip key))
      (pystrip key) aliasStr now1 with hRdef
  have hR1 : aget (ensure_placeholder st key aliasStr now1).items (pystrip key) = some R := by
    rw [hs1]
    exact aget_aset_self _ _ _
  have hRnil : R ≠ [] := by
    rw [hRdef]
    exact asetdefault_ne_nil _ _ _
  have hRalias : amem R "alias" = true := by
    rw [hRdef]
    unfold placeholderRecord
    rw [amem_asetdefault_ne _ _ (by decide)]
    exact amem_asetdefault_self _ _ _
  have hRrecv : amem R "receivedAt" = true := by
    rw [hRdef]
    unfold placeholderRecord
    exact amem_asetdefault_self _ _ _
  have hfix : placeholderRecord R (pystrip key) aliasStr now2 = R := by
    unfold placeholderRecord
    rw [asetdefault_of_amem _ hRalias, asetdefault_of_amem _ hRrecv]
  have hnd1 : (keysOf (ensure_placeholder st key aliasStr now1).items).Nodup := by
    rw [hs1]
    exact keysOf_aset_nodup _ _ _ hnd
  constructor
  · have hs2 : ∀ s1 : Store, aget s1.items (pystrip key) = some R →
        (ensure_placeholder s1 key aliasStr now2).items =
          aset s1.items (pystrip key) (placeholderRecord R (pystrip key) aliasStr now2) := by
      intro s1 hg
      have hentry : (match aget s1.items (pystrip key) with
          | some e => if e = [] then freshPlaceholder (pystrip key) else e
          | none => freshPlaceholder (pystrip key)) = R := by
        rw [hg]
        show (if R = [] then freshPlaceholder (pystrip key) else R) = R
        exact if_neg hRnil
      simp only [ensure_placeholder]
      rw [if_neg hk, hentry]
      rfl
    rw [hs2 (ensure_placeholder st key aliasStr now1) hR1, hfix]
    exact aset_self_eq hnd1 hR1
  · rw [hs1]
    exact keyCount_aset_self _ _ _ hnd

/-- Witness for C5 at concrete inputs. -/
theorem ensure_placeholder_idempotent_witness :
    (ensure_placeholder (ensure_placeholder exStore "web-b" "b" "t1") "web-b" "b" "t2").items =
      (ensure_placeholder exStore "web-b" "b" "t1").items ∧
    keyCount (ensure_placeholder exStore "web-b" "b" "t1").items (pystrip "web-b") = 1 :=
  ensure_placeholder_idempotent exStore "web-b" "b" "t1" "t2" (by decide) (by decide)

/-- The `since` instant as the specification describes it: the parse of
the supplied timestamp when one is supplied, absent otherwise. -/
def claimSinceDt (parse : String → Option Int) (since_iso : Option String) : Option Int :=
  match since_iso with
  | some s => parse s
  | none => none

/-- The filter as the specification describes it: a record is included
exactly when its stored `receivedAt` is absent or unparsable (not a
non-empty parseable string), or parses to an instant strictly after
`since`. -/
def claimIndexInclude (parse : String → Option Int) (t : Int) (e : Record) : Bool :=
  match aget e "receivedAt" with
  | some (.s r) =>
    match parse r with
    | some dt => dt > t
    | none => true
  | some _ => true
  | none => true

/-- The code's guarded filter agrees with the specification's filter for
any parser that rejects the empty string. -/
theorem indexInclude_eq_claim (parse : String → Option Int) (t : Int) (e : Record)
    (hp : parse "" = none) :
    indexInclude parse (some t) e = claimIndexInclude parse t e := by
  unfold indexInclude claimIndexInclude
  cases hv : aget e "receivedAt" with
  | none => rfl
  | some v =>
    cases v with
    | s r =>
        by_cases hr : r ≠ ""
        · simp [hr]
        · push_neg at hr
          subst hr
          simp [hp]
    | n i => rfl
    | null => rfl
    | obj f => rfl

/-- C7: `build_index` returns exactly the
(`instanceId`, `status`, `receivedAt`) projections of the records whose
`receivedAt` parses strictly after the supplied `since` timestamp when
that timestamp is supplied and parseable, the unfiltered projection when
`since` is absent or unparsable, and always includes records whose stored
`receivedAt` is absent or unparsable.  (Stated for any timestamp parser
that rejects the empty string, as an ISO-8601 parser does.) -/
theorem build_index_spec (st : Store) (since_iso : Option String)
    (parse : String → Option Int) (hp : parse "" = none) :
    build_index st since_iso parse =
      match claimSinceDt parse since_iso with
      | none => (st.items.map (fun p => p.2)).map indexProj
      | some t =>
          ((st.items.map (fun p => p.2)).filter (claimIndexInclude parse t)).map indexProj := by
  have hall : ∀ l : List Record, l.filter (indexInclude parse none) = l := by
    intro l
    apply List.filter_eq_self.mpr
    intro e _
    rfl
  rcases since_iso with _ | s
  · simp only [build_index, claimSinceDt]
    rw [hall]
  · by_cases hs : s ≠ ""
    · simp only [build_index, claimSinceDt]
      rw [if_pos hs]
      cases hps : parse s with
      | none => rw [hall]
      | some t =>
          apply congrArg
          apply List.filter_congr
          intro e _
          exact indexInclude_eq_claim parse t e hp
    · push_neg at hs
      subst hs
      simp only [build_index, claimSinceDt]
      rw [if_neg (by simp), hp, hall]

/-- Witness for C7: an unparsable `since` yields the unfiltered
projection, and a parseable one filters by strict recency. -/
theorem build_index_spec_witness :
    (fun s => if s = "2024-01-01T00:00:00Z" then some (10 : Int) else none) "" = none ∧
    build_index exStore (some "junk")
      (fun s => if s = "2024-01-01T00:00:00Z" then some (10 : Int) else none) =
      match claimSinceDt (fun s => if s = "2024-01-01T00:00:00Z" then some (10 : Int) else none)
        (some "junk") with
      | none => (exStore.items.map (fun p => p.2)).map indexProj
      | some t =>
          ((exStore.items.map (fun p => p.2)).filter
            (claimIndexInclude (fun s => if s = "2024-01-01T00:00:00Z" then some (10 : Int) else none) t)).map
            indexProj :=
  ⟨by decide,
   build_index_spec exStore (some "junk")
     (fun s => if s = "2024-01-01T00:00:00Z" then some (10 : Int) else none) (by decide)⟩

/-- A record extended by at most one `setdefault "alias"` step. -/
def AliasExt (d e : Record) : Prop :=
  e = d ∨ ∃ v, e = asetdefault d "alias" v

theorem aliasExt_aget_ne {d e : Record} (h : AliasExt d e) {k : String}
    (hk : k ≠ "alias") : aget e k = aget d k := by
  rcases h with rfl | ⟨v, rfl⟩
  · rfl
  · exact aget_asetdefault_ne d v hk

theorem aliasExt_of_match_alias (p1 : Record) (aliasArg : Option String) :
    AliasExt p1 (match aliasArg with
      | some a => if a ≠ "" then asetdefault p1 "alias" (.s a) else p1
      | none => p1) := by
  rcases aliasArg with _ | a
  · exact Or.inl rfl
  · by_cases ha : a ≠ ""
    · simp only [if_pos ha]
      exact Or.inr ⟨_, rfl⟩
    · simp only [if_neg ha]
      exact Or.inl rfl

theorem aliasExt_of_match_ph (p2 : Record) (placeholder : Option Record) :
    AliasExt p2 (match placeholder with
      | some ph =>
          if ph ≠ [] ∧ amem ph "alias" = true then asetdefault p2 "alias" (rget ph "alias")
          else p2
      | none => p2) := by
  rcases placeholder with _ | ph
  · exact Or.inl rfl
  · by_cases hph : ph ≠ [] ∧ amem ph "alias" = true
    · simp only [if_pos hph]
      exact Or.inr ⟨_, rfl⟩
    · simp only [if_neg hph]
      exact Or.inl rfl

/-- `upsertPayload` is the base record (payload with
`instanceId`/`status`/`receivedAt` overwritten) extended by at most three
`setdefault "alias"` steps, the last with the canonical key. -/
theorem upsertPayload_chain (payload : Record) (key : String)
    (aliasArg : Option String) (placeholder : Option Record) (now : String) :
    ∃ p2 p3 : Record,
      AliasExt (aset (aset (aset payload "instanceId" (.s key)) "status" (.s "online"))
        "receivedAt" (.s now)) p2 ∧ AliasExt p2 p3 ∧
      upsertPayload payload key aliasArg placeholder now = asetdefault p3 "alias" (.s key) :=
  ⟨_, _, aliasExt_of_match_alias _ aliasArg, aliasExt_of_match_ph _ placeholder, rfl⟩

theorem alias_carry_core (b : Record) (key : String) (oldR : Record) {av : Val}
    (hb : aget b "alias" = none) (hav : aget oldR "alias" = some av) :
    aget (asetdefault (if oldR ≠ [] ∧ amem oldR "alias" = true
      then asetdefault b "alias" (rget oldR "alias") else b) "alias" (.s key))
      "alias" = some av := by
  have hOldNil : oldR ≠ [] := by
    intro hcon
    subst hcon
    exact Option.noConfusion hav
  rw [if_pos ⟨hOldNil, amem_true_of_aget hav⟩]
  have hinner : aget (asetdefault b "alias" (rget oldR "alias")) "alias" = some av := by
    have hr : rget oldR "alias" = av := by
      rw [rget, hav]
      rfl
    rw [hr]
    exact aget_asetdefault_self _ (amem_false_of_aget_none hb)
  rw [asetdefault_of_amem _ (amem_true_of_aget hinner)]
  exact hinner

/-- When the payload lacks an alias, the alias argument is absent or
empty, and the popped placeholder holds one, the placeholder's alias is
carried into the written record. -/
theorem upsertPayload_alias_carry (payload : Record) (key : String)
    (aliasArg : Option String) (oldR : Record) (now : String)
    (hpal : amem payload "alias" = false)
    (haa : aliasArg = none ∨ aliasArg = some "")
    {av : Val} (hav : aget oldR "alias" = some av) :
    aget (upsertPayload payload key aliasArg (some oldR) now) "alias" = some av := by
  have hb : aget (aset (aset (aset payload "instanceId" (.s key)) "status"
      (.s "online")) "receivedAt" (.s now)) "alias" = none := by
    rw [aget_aset_ne _ _ (by decide), aget_aset_ne _ _ (by decide),
      aget_aset_ne _ _ (by decide)]
    exact aget_none_of_amem_false hpal
  rcases haa with rfl | rfl
  · exact alias_carry_core _ key oldR hb hav
  · exact alias_carry_core _ key oldR hb hav

theorem upsertPayload_status (payload : Record) (key : String)
    (aliasArg : Option String) (placeholder : Option Record) (now : String) :
    aget (upsertPayload payload key aliasArg placeholder now) "status" =
      some (.s "online") := by
  obtain ⟨p2, p3, h1, h2, h3⟩ := upsertPayload_chain payload key aliasArg placeholder now
  rw [h3, aget_asetdefault_ne _ _ (by decide), aliasExt_aget_ne h2 (by decide),
    aliasExt_aget_ne h1 (by decide), aget_aset_ne _ _ (by decide)]
  exact aget_aset_self _ "status" (Val.s "online")

/-- A store for the C1 counterexample: one placeholder record under
`"old"` whose alias is `"y"`. -/
def cexStore : Store :=
  { items := [("old", [("instanceId", .s "old"), ("alias", .s "y")])],
    file := [("old", [("instanceId", .s "old"), ("alias", .s "y")])], persists := 1 }

/-- C1 counterexample: the payload carries the new id `"new"`, lacks an
alias, and a record with alias `"y"` sits under the key hint `"old"`; yet
calling `upsert_online` with the (truthy) alias argument `"z"` stores
alias `"z"` — the alias argument takes precedence over the old record's
alias, refuting the claim's unconditional carry-forward. -/
theorem upsert_online_promotion_counterexample :
    amem ([("instanceId", Val.s "new")] : Record) "alias" = false ∧
    aget (storedRecord cexStore "old") "alias" = some (.s "y") ∧
    aget (storedRecord
      (upsert_online cexStore [("instanceId", Val.s "new")] (some "old") (some "z") "t1")
      "new") "alias" = some (.s "z") ∧
    aget (storedRecord
      (upsert_online cexStore [("instanceId", Val.s "new")] (some "old") (some "z") "t1")
      "new") "alias" ≠ some (.s "y") := by
  refine ⟨by rfl, by rfl, by rfl, by decide⟩

/-- C1 (amended): when the payload carries a non-empty resolved instance
id different from the (trimmed, non-empty) key hint and a record exists
under the key hint, `upsert_online` removes the old record, leaves
exactly one record under the new id with status online, and carries the
old record's alias forward whenever the new payload lacks an alias and
the alias argument is absent or empty (a truthy alias argument takes
precedence over the carried-forward alias). -/
theorem upsert_online_promotion (st : Store) (payload : Record) (kh : String)
    (aliasArg : Option String) (now : String)
    (hnd : (keysOf st.items).Nodup)
    (hiid : payloadInstanceId payload ≠ "")
    (hkh1 : pystrip kh = kh) (hkh2 : kh ≠ "")
    (hne : payloadInstanceId payload ≠ kh)
    (hmem : amem st.items kh = true) :
    aget (upsert_online st payload (some kh) aliasArg now).items kh = none ∧
    keyCount (upsert_online st payload (some kh) aliasArg now).items
      (payloadInstanceId payload) = 1 ∧
    aget (storedRecord (upsert_online st payload (some kh) aliasArg now)
      (payloadInstanceId payload)) "status" = some (.s "online") ∧
    (amem payload "alias" = false → (aliasArg = none ∨ aliasArg = some "") →
      ∀ av, aget (storedRecord st kh) "alias" = some av →
        aget (storedRecord (upsert_online st payload (some kh) aliasArg now)
          (payloadInstanceId payload)) "alias" = some av) := by
  have hkc : pystrip (sor ((some kh).getD "") (sor (payloadInstanceId payload) "")) = kh := by
    have hs : sor ((some kh).getD "") (sor (payloadInstanceId payload) "") = kh := by
      unfold sor
      simp [hkh2]
    rw [hs, hkh1]
  have hkey : sor (payloadInstanceId payload) kh = payloadInstanceId payload := by
    unfold sor
    simp [hiid]
  have hprom : payloadInstanceId payload ≠ "" ∧ kh ≠ "" ∧
      kh ≠ sor (payloadInstanceId payload) kh ∧ amem st.items kh = true := by
    refine ⟨hiid, hkh2, ?_, hmem⟩
    rw [hkey]
    exact fun h => hne h.symm
  have hres : (upsert_online st payload (some kh) aliasArg now).items =
      aset (apop st.items kh) (payloadInstanceId payload)
        (upsertPayload payload (payloadInstanceId payload) aliasArg
          (aget st.items kh) now) := by
    simp only [upsert_online]
    rw [hkc, if_neg hkh2, if_pos hprom, if_pos hprom, hkey]
    rfl
  obtain ⟨oldR, hOldR⟩ : ∃ r, aget st.items kh = some r := by
    cases hg : aget st.items kh with
    | some r => exact ⟨r, rfl⟩
    | none =>
        have := aget_isSome_of_amem hmem
        rw [hg] at this
        exact Bool.noConfusion this
  have hget : aget (upsert_online st payload (some kh) aliasArg now).items
      (payloadInstanceId payload) =
      some (upsertPayload payload (payloadInstanceId payload) aliasArg
        (aget st.items kh) now) := by
    rw [hres]
    exact aget_aset_self _ _ _
  have hrec : storedRecord (upsert_online st payload (some kh) aliasArg now)
      (payloadInstanceId payload) =
      upsertPayload payload (payloadInstanceId payload) aliasArg (aget st.items kh) now := by
    rw [storedRecord, hget]
    rfl
  refine ⟨?_, ?_, ?_, ?_⟩
  · rw [hres, aget_aset_ne _ _ (Ne.symm hne)]
    exact aget_apop_self st.items kh
  · rw [hres]
    exact keyCount_aset_self _ _ _ (keysOf_apop_nodup st.items kh hnd)
  · rw [hrec]
    exact upsertPayload_status _ _ _ _ _
  · intro hpal haa av hav
    rw [storedRecord, hOldR] at hav
    simp only [Option.getD] at hav
    rw [hrec, hOldR]
    exact upsertPayload_alias_carry payload (payloadInstanceId payload) aliasArg
      oldR now hpal haa hav

/-- Witness for C1 (amended) at concrete inputs: promotion of the spec's
`"node-a"` placeholder to `"abc-123"` with the alias carried forward. -/
theorem upsert_online_promotion_witness :
    aget (upsert_online exStore [("instanceId", Val.s "abc-123")] (some "node-a")
      none "t1").items "node-a" = none ∧
    keyCount (upsert_online exStore [("instanceId", Val.s "abc-123")] (some "node-a")
      none "t1").items (payloadInstanceId [("instanceId", Val.s "abc-123")]) = 1 ∧
    aget (storedRecord (upsert_online exStore [("instanceId", Val.s "abc-123")]
      (some "node-a") none "t1") (payloadInstanceId [("instanceId", Val.s "abc-123")]))
      "alias" = some (.s "node-a") :=
  have h := upsert_online_promotion exStore [("instanceId", Val.s "abc-123")] "node-a"
    none "t1" (by decide) (by decide) (by decide) (by decide) (by decide) (by decide)
  ⟨h.1, h.2.1, h.2.2.2 (by decide) (Or.inl rfl) (Val.s "node-a") (by rfl)⟩

/-- The identifier-field selection as the code performs it
(identity.py line 10): `instanceId` is consulted first, but a falsy value
falls through to `id`; the first truthy value wins, defaulting to `""`. -/
def firstTruthyId (fields : Fields) : Val :=
  Val.por (fields.get "instanceId") (Val.por (fields.get "id") (.s ""))

/-- On an object body the parse yields the trimmed first-truthy field
value, or `noId` when it trims to empty.  (An empty object is falsy, so
`data = body or \x7b\x7d` leaves it unchanged either way.) -/
theorem parse_instance_id_obj (fields : Fields) :
    parse_instance_id (.obj fields) =
      (if pystrip (firstTruthyId fields).pyStr = "" then .error .noId
       else .ok (pystrip (firstTruthyId fields).pyStr)) := by
  cases fields with
  | nil => rfl
  | cons k v rest => rfl

theorem parse_instance_id_truthy_notdict (v : Val) (ht : v.truthy = true)
    (hno : ∀ f, v ≠ .obj f) : (parse_instance_id v).isOk = false := by
  have hd : Val.por v (.obj .nil) = v := by
    unfold Val.por
    rw [ht]
    rfl
  unfold parse_instance_id
  rw [hd]
  cases v with
  | s a => rfl
  | n i => rfl
  | null => rfl
  | obj f => exact absurd rfl (hno f)

theorem parse_instance_id_falsy (v : Val) (ht : v.truthy = false) :
    (parse_instance_id v).isOk = false := by
  have hd : Val.por v (.obj .nil) = Val.obj .nil := by
    unfold Val.por
    rw [ht]
    rfl
  unfold parse_instance_id
  rw [hd]
  rfl

/-- C8 (amended): `fetch_instance_id` fails exactly when the HTTP request
itself raises (unreachable or timed out), the response status is 4xx/5xx
(`raise_for_status`), the body is not valid JSON, the body is a truthy
non-object, or the selected identifier trims to empty; on an object body
the selection consults `instanceId` first with falsy values falling
through to `id` (first truthy wins), and on success the returned
identifier is the string form of that value trimmed of surrounding
whitespace, an empty-after-trim value being a failure. -/
theorem fetch_instance_id_spec (resp : Except NetErr HttpResponse) :
    (∀ e, resp = .error e → (fetch_instance_id resp).isOk = false) ∧
    (∀ r, resp = .ok r → 400 ≤ r.status → r.status < 600 →
      (fetch_instance_id resp).isOk = false) ∧
    (∀ r, resp = .ok r → r.body = none → ¬(400 ≤ r.status ∧ r.status < 600) →
      (fetch_instance_id resp).isOk = false) ∧
    (∀ r v, resp = .ok r → r.body = some v → v.truthy = true →
      (∀ fields, v ≠ .obj fields) → (fetch_instance_id resp).isOk = false) ∧
    (∀ r v, resp = .ok r → r.body = some v → v.truthy = false →
      (fetch_instance_id resp).isOk = false) ∧
    (∀ r fields, resp = .ok r → ¬(400 ≤ r.status ∧ r.status < 600) →
      r.body = some (.obj fields) →
      fetch_instance_id resp =
        (if pystrip (firstTruthyId fields).pyStr = "" then .error .noId
         else .ok (pystrip (firstTruthyId fields).pyStr))) := by
  refine ⟨?_, ?_, ?_, ?_, ?_, ?_⟩
  · intro e h
    subst h
    rfl
  · intro r h h4 h6
    subst h
    simp only [fetch_instance_id]
    rw [if_pos (by simp [raise_for_status, h4, h6])]
    rfl
  · intro r h hb hs
    subst h
    simp only [fetch_instance_id]
    rw [if_neg (by simp [raise_for_status, hs]), hb]
    rfl
  · intro r v h hb ht hno
    subst h
    simp only [fetch_instance_id]
    by_cases hs : raise_for_status r.status = true
    · rw [if_pos hs]
      rfl
    · rw [if_neg hs, hb]
      show (parse_instance_id v).isOk = false
      exact parse_instance_id_truthy_notdict v ht hno
  · intro r v h hb ht
    subst h
    simp only [fetch_instance_id]
    by_cases hs : raise_for_status r.status = true
    · rw [if_pos hs]
      rfl
    · rw [if_neg hs, hb]
      show (parse_instance_id v).isOk = false
      exact parse_instance_id_falsy v ht
  · intro r fields h hs hb
    subst h
    simp only [fetch_instance_id]
    rw [if_neg (by simp [raise_for_status, hs]), hb]
    show parse_instance_id (.obj fields) = _
    exact parse_instance_id_obj fields

/-- A 200 response whose body carries `instanceId = " abc-123 "`. -/
def okResp : HttpResponse :=
  { status := 200, body := some (.obj (.cons "instanceId" (.s " abc-123 ") .nil)) }

/-- A 300 (non-2xx, non-4xx/5xx) response whose body carries
`instanceId = "srv-1"`. -/
def redirectResp : HttpResponse :=
  { status := 300, body := some (.obj (.cons "instanceId" (.s "srv-1") .nil)) }

/-- Witness for C8 at concrete inputs: a timeout fails, and a 2xx object
body yields the trimmed `instanceId` value. -/
theorem fetch_instance_id_spec_witness :
    (fetch_instance_id (.error .timedOut)).isOk = false ∧
    fetch_instance_id (.ok okResp) =
      (if pystrip (firstTruthyId (.cons "instanceId" (.s " abc-123 ") .nil)).pyStr = ""
       then .error .noId
       else .ok (pystrip (firstTruthyId (.cons "instanceId" (.s " abc-123 ") .nil)).pyStr)) :=
  ⟨(fetch_instance_id_spec (.error .timedOut)).1 .timedOut rfl,
   (fetch_instance_id_spec (.ok okResp)).2.2.2.2.2
     okResp (.cons "instanceId" (.s " abc-123 ") .nil) rfl (by decide) rfl⟩

/-- C8 counterexample: a response with the non-2xx status 300 and a valid
object body succeeds (the `requests` library's `raise_for_status` raises
only for 4xx/5xx), refuting "fails exactly when … returns a non-2xx
status". -/
theorem fetch_instance_id_counterexample :
    fetch_instance_id (.ok redirectResp) = .ok "srv-1" ∧
    (300 : Nat) / 100 ≠ 2 :=
  ⟨rfl, by decide⟩

/-! ### Poll-engine lemmas (C2, C9) -/

/-- The result component of one `_poll_target` run: `.error ()` when an
exception escapes into `_run_loop`, terminating the polling thread. -/
def pollResult (t : Target) (s : RegState) (o : Oracle) : Except Unit Unit :=
  (poll_target t s o).2.2

/-- The completed collaborator calls of one `_poll_target` run. -/
def pollCalls (t : Target) (s : RegState) (o : Oracle) : List Call :=
  (poll_target t s o).2.1

/-- The `effective_id` one `_poll_target` run derives (poller.py line 72). -/
def effectiveIdOf (t : Target) (s : RegState) (o : Oracle) : String :=
  match (ensure_identity s o).2.2 with
  | .ok instId => sor (instId.getD "") (keyHintOf t s)
  | .error _ => keyHintOf t s

theorem ensure_identity_resolved (s : RegState) (o : Oracle)
    (h : s.resolved = true) : ensure_identity s o = (s, [], .ok (some s.key)) := by
  unfold ensure_identity
  rw [if_pos h]

theorem ensure_identity_cached (s : RegState) (o : Oracle) (c : String)
    (h1 : s.resolved = false) (hc : s.cached = some c) (hcne : c ≠ "") :
    ensure_identity s o = ({ s with resolved := true, key := c }, [], .ok (some c)) := by
  unfold ensure_identity
  rw [if_neg (by rw [h1]; exact Bool.noConfusion),
    if_pos (by rw [hc]; simpa [otruthy] using hcne), hc]
  rfl

theorem ensure_identity_fetch_error (s : RegState) (o : Oracle)
    (h1 : s.resolved = false) (h2 : otruthy s.cached = false)
    (h3 : o.fetchId = .error ()) : ensure_identity s o = (s, [], .ok none) := by
  unfold ensure_identity
  rw [if_neg (by rw [h1]; exact Bool.noConfusion),
    if_neg (by rw [h2]; exact Bool.noConfusion), h3]

theorem ensure_identity_fetch_ok (s : RegState) (o : Oracle) (iid : String)
    (h1 : s.resolved = false) (h2 : otruthy s.cached = false)
    (h3 : o.fetchId = .ok iid) (h4 : iid ≠ "") :
    ensure_identity s o =
      (match o.broadcastOk with
       | .error _ => ({ s with cached := some iid, resolved := true, key := iid },
           [], .error ())
       | .ok _ =>
         match o.pruneOk with
         | .error _ => ({ s with cached := some iid, resolved := true, key := iid },
             [.broadcastC], .error ())
         | .ok _ => ({ s with cached := some iid, resolved := true, key := iid },
             [.broadcastC, .pruneC [iid]], .ok (some iid))) := by
  unfold ensure_identity
  rw [if_neg (by rw [h1]; exact Bool.noConfusion),
    if_neg (by rw [h2]; exact Bool.noConfusion), h3]
  show (if iid = "" then ((s, [], Except.ok none) :
      RegState × List Call × Except Unit (Option String))
    else
      let s2 := { s with cached := some iid, resolved := true, key := iid }
      match o.broadcastOk with
      | .error _ => (s2, [], .error ())
      | .ok _ =>
        match o.pruneOk with
        | .error _ => (s2, [.broadcastC], .error ())
        | .ok _ => (s2, [.broadcastC, .pruneC [s2.key]], .ok (some iid))) = _
  rw [if_neg h4]

/-- When the guarded section fails, `_poll_target` answers with one
`mark_offline` call; if that call itself raises, the exception escapes. -/
theorem poll_target_try_error (t : Target) (s : RegState) (o : Oracle)
    (s1 : RegState) (c1 : List Call) (instId : Option String)
    (hE : ensure_identity s o = (s1, c1, .ok instId))
    (hTry : o.metricsOk = .error () ∨ o.buildOk = .error () ∨ o.upsertOk = .error ()) :
    poll_target t s o =
      (match o.offlineOk with
       | .ok _ => (s1, c1 ++ [Call.offlineC (sor (instId.getD "") (keyHintOf t s))
           (aliasOf t s)], .ok ())
       | .error _ => (s1, c1, .error ())) := by
  unfold poll_target
  rw [hE]
  cases hm : o.metricsOk with
  | error e =>
      cases e
      cases ho : o.offlineOk with
      | ok v => cases v; simp [hm, ho]
      | error e2 => cases e2; simp [hm, ho]
  | ok v =>
      cases v
      cases hbld : o.buildOk with
      | error e =>
          cases e
          cases ho : o.offlineOk with
          | ok v2 => cases v2; simp [hm, hbld, ho]
          | error e2 => cases e2; simp [hm, hbld, ho]
      | ok v2 =>
          cases v2
          cases hup : o.upsertOk with
          | error e =>
              cases e
              cases ho : o.offlineOk with
              | ok v3 => cases v3; simp [hm, hbld, hup, ho]
              | error e2 => cases e2; simp [hm, hbld, hup, ho]
          | ok v3 =>
              cases v3
              rcases hTry with h | h | h
              · rw [hm] at h
                exact Except.noConfusion h
              · rw [hbld] at h
                exact Except.noConfusion h
              · rw [hup] at h
                exact Except.noConfusion h

/-- When identity resolution returned no id and the guarded section
succeeds, `_poll_target` performs exactly one upsert, keyed by the key
hint, and no offline write. -/
theorem poll_target_ok_none (t : Target) (s : RegState) (o : Oracle)
    (s1 : RegState) (c1 : List Call)
    (hE : ensure_identity s o = (s1, c1, .ok none))
    (hm : o.metricsOk = .ok ()) (hb : o.buildOk = .ok ()) (hu : o.upsertOk = .ok ()) :
    poll_target t s o =
      (s1, c1 ++ [Call.upsertC (keyHintOf t s) (keyHintOf t s) (aliasOf t s)], .ok ()) := by
  unfold poll_target
  rw [hE]
  simp [hm, hb, hu, otruthy, sor]

theorem poll_target_ensure_error (t : Target) (s : RegState) (o : Oracle)
    (s1 : RegState) (c1 : List Call)
    (hE : ensure_identity s o = (s1, c1, .error ())) :
    poll_target t s o = (s1, c1, .error ()) := by
  unfold poll_target
  rw [hE]

/-- C2 (amended): (1) an exception in the guarded metrics/payload/upsert
section is caught and converted to one `mark_offline(effectiveId, alias)`
write, provided `mark_offline` itself does not raise; (2) if `mark_offline`
raises, the exception escapes the per-target poll; (3) an identity-fetch
exception is caught inside `_ensure_identity` and yields no identifier —
polling proceeds under the key hint and performs an upsert, not an
offline write; (4) an exception raised by the whitelist broadcast or the
prune that follow a successful identity resolution escapes the per-target
poll (and thus terminates the polling loop). -/
theorem poll_target_error_handling (t : Target) (s : RegState) (o : Oracle) :
    ((ensure_identity s o).2.2 ≠ .error () →
      (o.metricsOk = .error () ∨ o.buildOk = .error () ∨ o.upsertOk = .error ()) →
      o.offlineOk = .ok () →
      pollResult t s o = .ok () ∧
        Call.offlineC (effectiveIdOf t s o) (aliasOf t s) ∈ pollCalls t s o) ∧
    ((ensure_identity s o).2.2 ≠ .error () →
      (o.metricsOk = .error () ∨ o.buildOk = .error () ∨ o.upsertOk = .error ()) →
      o.offlineOk = .error () →
      pollResult t s o = .error ()) ∧
    (s.resolved = false → otruthy s.cached = false → o.fetchId = .error () →
      o.metricsOk = .ok () → o.buildOk = .ok () → o.upsertOk = .ok () →
      pollResult t s o = .ok () ∧
        pollCalls t s o = [Call.upsertC (keyHintOf t s) (keyHintOf t s) (aliasOf t s)]) ∧
    (s.resolved = false → otruthy s.cached = false →
      (∃ i, o.fetchId = .ok i ∧ i ≠ "") →
      (o.broadcastOk = .error () ∨ o.pruneOk = .error ()) →
      pollResult t s o = .error ()) := by
  refine ⟨?_, ?_, ?_, ?_⟩
  · intro hne hTry ho
    rcases hE : ensure_identity s o with ⟨s1, c1, r⟩
    cases r with
    | error e =>
        cases e
        rw [hE] at hne
        exact absurd rfl hne
    | ok instId =>
        have hP := poll_target_try_error t s o s1 c1 instId hE hTry
        rw [ho] at hP
        constructor
        · rw [pollResult, hP]
        · rw [pollCalls, hP]
          have heff : effectiveIdOf t s o = sor (instId.getD "") (keyHintOf t s) := by
            rw [effectiveIdOf, hE]
          rw [heff]
          simp
  · intro hne hTry ho
    rcases hE : ensure_identity s o with ⟨s1, c1, r⟩
    cases r with
    | error e =>
        cases e
        rw [hE] at hne
        exact absurd rfl hne
    | ok instId =>
        have hP := poll_target_try_error t s o s1 c1 instId hE hTry
        rw [ho] at hP
        rw [pollResult, hP]
  · intro h1 h2 hf hm hb hu
    have hE := ensure_identity_fetch_error s o h1 h2 hf
    have hP := poll_target_ok_none t s o s [] hE hm hb hu
    constructor
    · rw [pollResult, hP]
    · rw [pollCalls, hP]
      simp
  · intro h1 h2 hex hdisj
    obtain ⟨i, hfi, hine⟩ := hex
    have hE := ensure_identity_fetch_ok s o i h1 h2 hfi hine
    cases hbr : o.broadcastOk with
    | error e =>
        cases e
        rw [hbr] at hE
        rw [pollResult, poll_target_ensure_error t s o _ _ hE]
    | ok v =>
        cases v
        rcases hdisj with hd | hd
        · rw [hbr] at hd
          exact Except.noConfusion hd
        · rw [hbr, hd] at hE
          rw [pollResult, poll_target_ensure_error t s o _ _ hE]

/-- The alias-only target of the spec's end-to-end scenario. -/
def webTarget : Target := { alias2 := "web-b", instance_id := none }

/-- An oracle on which every collaborator call succeeds, the identity
endpoint answering `"durable-7"`. -/
def idealOracle : Oracle where
  fetchId := .ok "durable-7"
  broadcastOk := .ok ()
  pruneOk := .ok ()
  metricsOk := .ok ()
  buildOk := .ok ()
  upsertOk := .ok ()
  broadcast2Ok := .ok ()
  offlineOk := .ok ()

/-- C2 counterexample: the identity fetch succeeds but the whitelist
broadcast performed inside `_ensure_identity` raises; `_ensure_identity`
is called outside `_poll_target`'s `try` block, so the exception escapes
the per-target poll (terminating `_run_loop`) and no store write — in
particular no `mark_offline` — happens, refuting both "all per-target
exceptions are caught" and "converted to an offline status write". -/
theorem poll_target_counterexample :
    pollResult webTarget (initReg webTarget)
      { idealOracle with broadcastOk := .error () } = .error () ∧
    pollCalls webTarget (initReg webTarget)
      { idealOracle with broadcastOk := .error () } = [] := by
  constructor
  · rfl
  · rfl

/-- Witness for C2 (amended) at concrete inputs: a failing metrics fetch
is answered by an offline write and the poll returns normally, and a
failing identity fetch leads to an upsert under the alias key hint. -/
theorem poll_target_error_handling_witness :
    (pollResult webTarget (initReg webTarget)
        { idealOracle with metricsOk := .error () } = .ok () ∧
      Call.offlineC
        (effectiveIdOf webTarget (initReg webTarget)
          { idealOracle with metricsOk := .error () })
        (aliasOf webTarget (initReg webTarget)) ∈
        pollCalls webTarget (initReg webTarget)
          { idealOracle with metricsOk := .error () }) ∧
    (pollResult webTarget (initReg webTarget)
        { idealOracle with fetchId := .error () } = .ok () ∧
      pollCalls webTarget (initReg webTarget) { idealOracle with fetchId := .error () } =
        [Call.upsertC (keyHintOf webTarget (initReg webTarget))
          (keyHintOf webTarget (initReg webTarget))
          (aliasOf webTarget (initReg webTarget))]) :=
  ⟨(poll_target_error_handling webTarget (initReg webTarget)
      { idealOracle with metricsOk := .error () }).1
      (by decide) (Or.inl rfl) rfl,
   (poll_target_error_handling webTarget (initReg webTarget)
      { idealOracle with fetchId := .error () }).2.2.1
      rfl rfl rfl rfl rfl rfl⟩

/-- A resolved entry is never touched again: `_ensure_identity` returns
immediately and the post-upsert registry update is guarded by
`not resolved`. -/
theorem poll_target_state_resolved (t : Target) (s : RegState) (o : Oracle)
    (h : s.resolved = true) : (poll_target t s o).1 = s := by
  unfold poll_target
  rw [ensure_identity_resolved s o h]
  cases hm : o.metricsOk with
  | error e =>
      cases e
      cases ho : o.offlineOk with
      | ok v => cases v; simp [hm, ho]
      | error e2 => cases e2; simp [hm, ho]
  | ok v =>
      cases v
      cases hb : o.buildOk with
      | error e =>
          cases e
          cases ho : o.offlineOk with
          | ok v2 => cases v2; simp [hm, hb, ho]
          | error e2 => cases e2; simp [hm, hb, ho]
      | ok v2 =>
          cases v2
          cases hu : o.upsertOk with
          | error e =>
              cases e
              cases ho : o.offlineOk with
              | ok v3 => cases v3; simp [hm, hb, hu, ho]
              | error e2 => cases e2; simp [hm, hb, hu, ho]
          | ok v3 =>
              cases v3
              simp [hm, hb, hu, h]

theorem ensure_identity_state (s : RegState) (o : Oracle) :
    (ensure_identity s o).1 = s ∨ ((ensure_identity s o).1).resolved = true := by
  by_cases h : s.resolved = true
  · rw [ensure_identity_resolved s o h]
    exact Or.inl rfl
  · have h1 : s.resolved = false := by
      cases hr : s.resolved
      · rfl
      · exact absurd hr h
    cases h2 : otruthy s.cached with
    | true =>
        right
        obtain ⟨c, hc, hcne⟩ : ∃ c, s.cached = some c ∧ c ≠ "" := by
          cases hcc : s.cached with
          | none => rw [hcc] at h2; exact Bool.noConfusion h2
          | some c =>
              rw [hcc] at h2
              exact ⟨c, rfl, by simpa [otruthy] using h2⟩
        rw [ensure_identity_cached s o c h1 hc hcne]
    | false =>
        cases hf : o.fetchId with
        | error e =>
            cases e
            rw [ensure_identity_fetch_error s o h1 h2 hf]
            exact Or.inl rfl
        | ok iid =>
            by_cases hiid : iid = ""
            · subst hiid
              left
              unfold ensure_identity
              rw [if_neg (by rw [h1]; exact Bool.noConfusion),
                if_neg (by rw [h2]; exact Bool.noConfusion), hf]
              rfl
            · right
              rw [ensure_identity_fetch_ok s o iid h1 h2 hf hiid]
              cases hb : o.broadcastOk with
              | error e => rfl
              | ok v =>
                  cases hp : o.pruneOk with
                  | error e => rfl
                  | ok v2 => rfl

theorem poll_target_state_aux (t : Target) (s : RegState) (o : Oracle)
    (s1 : RegState) (c1 : List Call) (r : Except Unit (Option String))
    (hE : ensure_identity s o = (s1, c1, r)) :
    (poll_target t s o).1 = s1 ∨ ((poll_target t s o).1).resolved = true := by
  unfold poll_target
  rw [hE]
  cases r with
  | error e => cases e; exact Or.inl rfl
  | ok instId =>
      cases hm : o.metricsOk with
      | error e =>
          cases e
          cases ho : o.offlineOk with
          | ok v => cases v; left; simp [hm, ho]
          | error e2 => cases e2; left; simp [hm, ho]
      | ok v =>
          cases v
          cases hb : o.buildOk with
          | error e =>
              cases e
              cases ho : o.offlineOk with
              | ok v2 => cases v2; left; simp [hm, hb, ho]
              | error e2 => cases e2; left; simp [hm, hb, ho]
          | ok v2 =>
              cases v2
              cases hu : o.upsertOk with
              | error e =>
                  cases e
                  cases ho : o.offlineOk with
                  | ok v3 => cases v3; left; simp [hm, hb, hu, ho]
                  | error e2 => cases e2; left; simp [hm, hb, hu, ho]
              | ok v3 =>
                  cases v3
                  by_cases hcond : (otruthy instId && !s1.resolved) = true
                  · right
                    cases hb2 : o.broadcast2Ok with
                    | error e =>
                        cases e
                        cases ho : o.offlineOk with
                        | ok v4 => cases v4; simp [hm, hb, hu, hcond, hb2, ho]
                        | error e2 => cases e2; simp [hm, hb, hu, hcond, hb2, ho]
                    | ok v4 => cases v4; simp [hm, hb, hu, hcond, hb2]
                  · left
                    simp [hm, hb, hu, hcond]

/-- One `_poll_target` run either leaves the per-target state unchanged
or leaves it resolved. -/
theorem poll_target_state_cases (t : Target) (s : RegState) (o : Oracle) :
    (poll_target t s o).1 = s ∨ ((poll_target t s o).1).resolved = true := by
  rcases hE : ensure_identity s o with ⟨s1, c1, r⟩
  rcases poll_target_state_aux t s o s1 c1 r hE with h | h
  · have hs1 := ensure_identity_state s o
    rw [hE] at hs1
    rcases hs1 with h2 | h2
    · left
      rw [h]
      exact h2
    · right
      rw [h]
      exact h2
  · right
    exact h

/-- Running `_poll_target` repeatedly from an arbitrary per-target state. -/
def runFrom (t : Target) (s : RegState) (os : List Oracle) : RegState :=
  os.foldl (fun s o => (poll_target t s o).1) s

theorem runPolls_append (t : Target) (pre post : List Oracle) :
    runPolls t (pre ++ post) = runFrom t (runPolls t pre) post := by
  unfold runPolls runFrom
  rw [List.foldl_append]

theorem runFrom_resolved (t : Target) (s : RegState) (os : List Oracle)
    (h : s.resolved = true) : runFrom t s os = s := by
  induction os with
  | nil => rfl
  | cons o os ih =>
      show runFrom t ((poll_target t s o).1) os = s
      rw [poll_target_state_resolved t s o h]
      exact ih

theorem runFrom_cases (t : Target) (os : List Oracle) :
    ∀ s : RegState, runFrom t s os = s ∨ (runFrom t s os).resolved = true := by
  induction os with
  | nil =>
      intro s
      exact Or.inl rfl
  | cons o os ih =>
      intro s
      rcases poll_target_state_cases t s o with h | h
      · show runFrom t ((poll_target t s o).1) os = s ∨
          (runFrom t ((poll_target t s o).1) os).resolved = true
        rw [h]
        exact ih s
      · right
        show (runFrom t ((poll_target t s o).1) os).resolved = true
        rw [runFrom_resolved t _ os h]
        exact h

theorem tracking_key_unresolved (t : Target) (h : otruthy t.instance_id = false) :
    t.tracking_key = t.alias2 := by
  unfold Target.tracking_key sor
  cases hc : t.instance_id with
  | none => simp
  | some c =>
      rw [hc] at h
      have hce : c = "" := by simpa [otruthy] using h
      subst hce
      simp

/-- An entry that is still unresolved is still keyed by its configured
alias. -/
theorem runPolls_alias (t : Target) (os : List Oracle)
    (h : (runPolls t os).resolved = false) : (runPolls t os).key = t.alias2 := by
  rcases runFrom_cases t os (initReg t) with he | hr
  · have heq : runPolls t os = initReg t := he
    rw [heq] at h ⊢
    have hot : otruthy t.instance_id = false := h
    show t.tracking_key = t.alias2
    exact tracking_key_unresolved t hot
  · have hr2 : (runPolls t os).resolved = true := hr
    rw [hr2] at h
    exact Bool.noConfusion h

/-- C9: along every sequence of per-target polls, once the entry is
resolved its whole registry state (in particular `resolved` and the
current key) never changes again, and whenever the current key changes
across a sequence of polls, the entry was unresolved before, is resolved
after, and the old key was the configured alias — so the key moves only
from alias to a resolved durable id, never back, and at most once. -/
theorem registry_one_way (t : Target) (pre post : List Oracle) :
    ((runPolls t pre).resolved = true → runPolls t (pre ++ post) = runPolls t pre) ∧
    ((runPolls t pre).key ≠ (runPolls t (pre ++ post)).key →
      (runPolls t pre).resolved = false ∧ (runPolls t (pre ++ post)).resolved = true ∧
      (runPolls t pre).key = t.alias2) := by
  constructor
  · intro h
    rw [runPolls_append]
    exact runFrom_resolved t _ post h
  · intro hk
    have hres : (runPolls t pre).resolved = false := by
      cases hr : (runPolls t pre).resolved
      · rfl
      · exfalso
        apply hk
        rw [runPolls_append, runFrom_resolved t _ post hr]
    refine ⟨hres, ?_, runPolls_alias t pre hres⟩
    rw [runPolls_append]
    rcases runFrom_cases t post (runPolls t pre) with he | hr
    · exfalso
      apply hk
      rw [runPolls_append, he]
    · exact hr

/-- Witness for C9: the alias-only target starts unresolved under
`"web-b"` and one successful poll promotes it, resolved, to
`"durable-7"`. -/
theorem registry_one_way_witness :
    (runPolls webTarget []).resolved = false ∧
    (runPolls webTarget ([] ++ [idealOracle])).resolved = true ∧
    (runPolls webTarget []).key = webTarget.alias2 :=
  (registry_one_way webTarget [] [idealOracle]).2 (by decide)

end Charito
